import Mathlib

/-!
Verification of the calculation engine of the Simple_calculator repository
(src/src/calculator.c, src/include/calculator.h) against its specification.

The engine works on C doubles.  We embed a double as an element of `FP`:
either a finite value (carried exactly as a rational), positive infinity,
negative infinity, or NaN.  Finite arithmetic is modelled exactly, with
saturation to infinity past the IEEE double overflow threshold DBL_MAX;
no claim under verification depends on rounding of in-range values.
The C comparison operators are modelled by `fpEq` / `fpLt` with the IEEE
rules (NaN compares false with everything, including itself).

The out-parameter `double *result` of each engine function is embedded as
an `Option FP`: `none` is the NULL pointer, `some c` a cell holding `c`.
Each function returns the C `calc_result_t` code together with the final
cell contents, so that "the cell was written before returning" and "the
function returned before computing" are both observable in the model.
-/

inductive FP where
  | finite (q : ℚ)
  | posInf
  | negInf
  | nan
deriving DecidableEq

/-- DBL_MAX, the largest finite double: (2 - 2^-52) * 2^1023 = (2^53 - 1) * 2^971,
written out as an explicit integer so that kernel evaluation stays on numeral
arithmetic. -/
def FP.maxFinite : ℚ := 179769313486231570814527423731704356798070567525844996598917476803157260780028538760589558632766878171540458953514382464234321326889464182768467546703537516986049910576551282076245490090389328944075868508455133942304583236903222948165808559332123348274797826204144723168738177180919299881250404026184124858368

/-- Saturation of an exact rational result into the double model: values past
the overflow threshold become infinities, in-range values stay exact. -/
def roundFP (q : ℚ) : FP :=
  if FP.maxFinite < q then FP.posInf
  else if q < -FP.maxFinite then FP.negInf
  else FP.finite q

/-- IEEE equality comparison (C operator ==): NaN is unequal to everything. -/
def fpEq : FP → FP → Bool
  | FP.finite a, FP.finite b => decide (a = b)
  | FP.posInf, FP.posInf => true
  | FP.negInf, FP.negInf => true
  | _, _ => false

/-- IEEE less-than comparison (C operator <): any comparison with NaN is false. -/
def fpLt : FP → FP → Bool
  | FP.finite a, FP.finite b => decide (a < b)
  | FP.finite _, FP.posInf => true
  | FP.negInf, FP.finite _ => true
  | FP.negInf, FP.posInf => true
  | _, _ => false

/-- C fabs. -/
def fpAbs : FP → FP
  | FP.finite q => FP.finite |q|
  | FP.posInf => FP.posInf
  | FP.negInf => FP.posInf
  | FP.nan => FP.nan

/-- C isinf. -/
def fpIsInf : FP → Bool
  | FP.posInf => true
  | FP.negInf => true
  | _ => false

/-- C floor; on non-finite values floor is the identity. -/
def fpFloor : FP → FP
  | FP.finite q => FP.finite (⌊q⌋ : ℤ)
  | x => x

/-- Double addition.  The engine validates both operands as finite before any
arithmetic (calculator.c lines 51, 75, 99, 123, 174), so only the finite case
is reachable; the remaining cases are conservatively NaN. -/
def fpAdd : FP → FP → FP
  | FP.finite a, FP.finite b => roundFP (a + b)
  | _, _ => FP.nan

/-- Double subtraction; see the comment on fpAdd. -/
def fpSub : FP → FP → FP
  | FP.finite a, FP.finite b => roundFP (a - b)
  | _, _ => FP.nan

/-- Double multiplication; see the comment on fpAdd. -/
def fpMul : FP → FP → FP
  | FP.finite a, FP.finite b => roundFP (a * b)
  | _, _ => FP.nan

/-- Double division.  Reached only with both operands finite and the divisor
of magnitude at least CALC_PRECISION_EPSILON (calculator.c line 128), hence
nonzero; other cases are conservatively NaN. -/
def fpDiv : FP → FP → FP
  | FP.finite a, FP.finite b => roundFP (a / b)
  | _, _ => FP.nan

/-- calc_result_t from calculator.h lines 39-47. -/
inductive calc_result_t where
  | CALC_SUCCESS
  | CALC_ERROR_DIVISION_BY_ZERO
  | CALC_ERROR_DOMAIN
  | CALC_ERROR_OVERFLOW
  | CALC_ERROR_UNDERFLOW
  | CALC_ERROR_INVALID_INPUT
  | CALC_ERROR_INIT
deriving DecidableEq

export calc_result_t (CALC_SUCCESS CALC_ERROR_DIVISION_BY_ZERO CALC_ERROR_DOMAIN
  CALC_ERROR_OVERFLOW CALC_ERROR_UNDERFLOW CALC_ERROR_INVALID_INPUT CALC_ERROR_INIT)

/-- CALC_PRECISION_EPSILON from calculator.h line 26, the literal 1e-15,
written with mkRat so that kernel evaluation stays on numeral arithmetic. -/
def CALC_PRECISION_EPSILON : ℚ := mkRat 1 (10 ^ 15)

/-- INT_MAX for the 32-bit C int used by calculator_modulus. -/
def INT_MAX : ℤ := 2 ^ 31 - 1

/-- INT_MIN for the 32-bit C int used by calculator_modulus. -/
def INT_MIN : ℤ := -(2 ^ 31)

/-- CALC_MAX_SAFE_INTEGER from calculator.h line 29. -/
def CALC_MAX_SAFE_INTEGER : ℤ := INT_MAX

/-- CALC_MIN_SAFE_INTEGER from calculator.h line 32. -/
def CALC_MIN_SAFE_INTEGER : ℤ := INT_MIN

/-- calculator_is_valid_number (calculator.c lines 221-223):
isfinite(value) and not isnan(value). -/
def calculator_is_valid_number : FP → Bool
  | FP.finite _ => true
  | _ => false

/-- calculator_is_overflow (calculator.c lines 225-227):
isinf(value) and value > 0.0. -/
def calculator_is_overflow (value : FP) : Bool :=
  fpIsInf value && fpLt (FP.finite 0) value

/-- calculator_is_underflow (calculator.c lines 229-232):
(value == 0.0 and not a valid number) or (isinf(value) and value < 0.0). -/
def calculator_is_underflow (value : FP) : Bool :=
  (fpEq value (FP.finite 0) && !calculator_is_valid_number value) ||
    (fpIsInf value && fpLt value (FP.finite 0))

/-- calculator_add (calculator.c lines 45-67). -/
def calculator_add (a b : FP) (result : Option FP) : calc_result_t × Option FP :=
  match result with
  | none => (CALC_ERROR_INVALID_INPUT, none)
  | some c =>
    if !calculator_is_valid_number a || !calculator_is_valid_number b then
      (CALC_ERROR_INVALID_INPUT, some c)
    else
      let r := fpAdd a b
      if calculator_is_overflow r then (CALC_ERROR_OVERFLOW, some r)
      else if calculator_is_underflow r then (CALC_ERROR_UNDERFLOW, some r)
      else (CALC_SUCCESS, some r)

/-- calculator_subtract (calculator.c lines 69-91). -/
def calculator_subtract (a b : FP) (result : Option FP) : calc_result_t × Option FP :=
  match result with
  | none => (CALC_ERROR_INVALID_INPUT, none)
  | some c =>
    if !calculator_is_valid_number a || !calculator_is_valid_number b then
      (CALC_ERROR_INVALID_INPUT, some c)
    else
      let r := fpSub a b
      if calculator_is_overflow r then (CALC_ERROR_OVERFLOW, some r)
      else if calculator_is_underflow r then (CALC_ERROR_UNDERFLOW, some r)
      else (CALC_SUCCESS, some r)

/-- calculator_multiply (calculator.c lines 93-115). -/
def calculator_multiply (a b : FP) (result : Option FP) : calc_result_t × Option FP :=
  match result with
  | none => (CALC_ERROR_INVALID_INPUT, none)
  | some c =>
    if !calculator_is_valid_number a || !calculator_is_valid_number b then
      (CALC_ERROR_INVALID_INPUT, some c)
    else
      let r := fpMul a b
      if calculator_is_overflow r then (CALC_ERROR_OVERFLOW, some r)
      else if calculator_is_underflow r then (CALC_ERROR_UNDERFLOW, some r)
      else (CALC_SUCCESS, some r)

/-- calculator_divide (calculator.c lines 117-144). -/
def calculator_divide (a b : FP) (result : Option FP) : calc_result_t × Option FP :=
  match result with
  | none => (CALC_ERROR_INVALID_INPUT, none)
  | some c =>
    if !calculator_is_valid_number a || !calculator_is_valid_number b then
      (CALC_ERROR_INVALID_INPUT, some c)
    else if fpLt (fpAbs b) (FP.finite CALC_PRECISION_EPSILON) then
      (CALC_ERROR_DIVISION_BY_ZERO, some c)
    else
      let r := fpDiv a b
      if calculator_is_overflow r then (CALC_ERROR_OVERFLOW, some r)
      else if calculator_is_underflow r then (CALC_ERROR_UNDERFLOW, some r)
      else (CALC_SUCCESS, some r)

/-- calculator_modulus (calculator.c lines 146-166).  The C parameters have
type int; the model takes unbounded integers, so the int range appears as a
hypothesis in the theorems about actual C calls.  The C remainder operator
truncates toward zero; the model totalizes it as Int.tmod, which agrees with
C's a % b wherever the C expression is defined (see cIntRem below).  At the
one int-range input where C leaves a % b undefined -- a = INT_MIN, b = -1,
whose quotient 2^31 is unrepresentable -- the model's value is an invention;
theorems that depend on the stored remainder therefore either exclude that
input or state agreement with cIntRem. -/
def calculator_modulus (a b : ℤ) (result : Option FP) : calc_result_t × Option FP :=
  match result with
  | none => (CALC_ERROR_INVALID_INPUT, none)
  | some c =>
    if a > CALC_MAX_SAFE_INTEGER ∨ a < CALC_MIN_SAFE_INTEGER ∨
        b > CALC_MAX_SAFE_INTEGER ∨ b < CALC_MIN_SAFE_INTEGER then
      (CALC_ERROR_INVALID_INPUT, some c)
    else if b = 0 then
      (CALC_ERROR_DIVISION_BY_ZERO, some c)
    else
      (CALC_SUCCESS, some (FP.finite ((Int.tmod a b : ℤ) : ℚ)))

/-- The C remainder expression a % b on 32-bit int operands, with its partiality
made explicit: truncated remainder where C defines it, none where the C
expression is undefined behavior -- b = 0, or a = INT_MIN with b = -1, where
the corresponding division overflows (C11 6.5.5p6) and mainstream hardware
traps instead of producing a value. -/
def cIntRem (a b : ℤ) : Option ℤ :=
  if b = 0 ∨ (a = INT_MIN ∧ b = -1) then none
  else some (Int.tmod a b)

/-- The errno state left by the C library pow call (calculator.c lines 188-204). -/
inductive Errno where
  | ok
  | edom
  | erange
deriving DecidableEq

/-- calculator_power (calculator.c lines 168-215).  The math-library pow is
external to the repository, so the function is parameterized by it: `pw`
returns the computed double together with the errno it sets.  Theorems that
need the C library guarantee (pow of finite arguments never returns NaN
outside the domain-error cases, which the engine excludes beforehand) state
it as a hypothesis on `pw`. -/
def calculator_power (pw : FP → FP → FP × Errno) (base exponent : FP)
    (result : Option FP) : calc_result_t × Option FP :=
  match result with
  | none => (CALC_ERROR_INVALID_INPUT, none)
  | some c =>
    if !calculator_is_valid_number base || !calculator_is_valid_number exponent then
      (CALC_ERROR_INVALID_INPUT, some c)
    else if fpEq base (FP.finite 0) && fpLt exponent (FP.finite 0) then
      (CALC_ERROR_DIVISION_BY_ZERO, some c)
    else if fpLt base (FP.finite 0) && !fpEq (fpFloor exponent) exponent then
      (CALC_ERROR_DOMAIN, some c)
    else
      let r := (pw base exponent).1
      let e := (pw base exponent).2
      if e = Errno.edom then (CALC_ERROR_DOMAIN, some r)
      else if e = Errno.erange then
        if calculator_is_overflow r then (CALC_ERROR_OVERFLOW, some r)
        else if calculator_is_underflow r then (CALC_ERROR_UNDERFLOW, some r)
        else if calculator_is_overflow r then (CALC_ERROR_OVERFLOW, some r)
        else if calculator_is_underflow r then (CALC_ERROR_UNDERFLOW, some r)
        else (CALC_SUCCESS, some r)
      else
        if calculator_is_overflow r then (CALC_ERROR_OVERFLOW, some r)
        else if calculator_is_underflow r then (CALC_ERROR_UNDERFLOW, some r)
        else (CALC_SUCCESS, some r)

/-- Reference instantiation of the external pow for integral exponents:
exact rational power saturated at the double range, errno clear.  The
non-integral-exponent cases are not exercised by any theorem below (every
such call site is either behind the engine domain checks or replaced by a
hypothesis on the pow parameter). -/
def powRef : FP → FP → FP × Errno
  | FP.finite b, FP.finite e =>
    if e.den = 1 then (roundFP (b ^ e.num), Errno.ok)
    else (FP.nan, Errno.edom)
  | _, _ => (FP.nan, Errno.edom)

/-- The trailing overflow and underflow classification every computing engine
operation applies to the value it just stored (calculator.c lines 58-65,
82-89, 106-113, 135-142 and 206-213), named so that the check-order theorem
can refer to it. -/
def classify (r : FP) : calc_result_t :=
  if calculator_is_overflow r then CALC_ERROR_OVERFLOW
  else if calculator_is_underflow r then CALC_ERROR_UNDERFLOW
  else CALC_SUCCESS

/-- Rational lower approximation of the square root, used by the spec-modelled
square-root operation: the numerator is the integer square root of the
operand scaled by a denominator large enough that the square of the result is
within 1e-9 of the operand (proved below). -/
def ratSqrt (a : ℚ) : ℚ :=
  (Nat.sqrt (a.num.toNat * a.den * (3 * 10 ^ 9 * (a.num.toNat + 1)) ^ 2) : ℚ) /
    ((a.den : ℚ) * ((3 * 10 ^ 9 * (a.num.toNat + 1) : ℕ) : ℚ))

/-- Modelled from the spec: the square-root engine operation.  The function
calculate_sqrt is called from src/src/main.c but its implementation file is
not under src/.  Spec section 4.1: operand finite (non-finite operand is
InvalidInput after the null check), domain a >= 0, result sqrt(a), a < 0
yields DomainError; spec section 8: the computed value v satisfies
v*v approximately a with tolerance 1e-9, which the rational approximation
ratSqrt realizes. -/
def calculate_sqrt (a : FP) (result : Option FP) : calc_result_t × Option FP :=
  match result with
  | none => (CALC_ERROR_INVALID_INPUT, none)
  | some c =>
    match a with
    | FP.finite q =>
      if q < 0 then (CALC_ERROR_DOMAIN, some c)
      else (CALC_SUCCESS, some (FP.finite (ratSqrt q)))
    | _ => (CALC_ERROR_INVALID_INPUT, some c)

/-- Operation variant from spec section 3. -/
inductive Operation where
  | Add
  | Subtract
  | Multiply
  | Divide
  | Modulus
  | Power
  | SquareRoot
  | Log
  | Sin
  | Cos
  | Tan
deriving DecidableEq

/-- Modelled from the spec: a HistoryEntry record (spec section 3) with the
two operands (the second optional for unary operations), the operation, the
result and the order index.  The history implementation (add_to_history and
the display routine called from src/src/main.c) is not under src/. -/
structure HistoryEntry where
  operand_a : ℚ
  operand_b : Option ℚ
  operation : Operation
  result : ℚ
  order_index : ℕ
deriving DecidableEq

/-- The fixed history capacity (spec sections 3 and 4.2: 50 entries). -/
def HISTORY_CAPACITY : ℕ := 50

/-- Modelled from the spec: record(entry) appends the entry if capacity is not
yet reached; once full, further records are silently dropped (spec section
4.2, source behavior). -/
def record (log : List HistoryEntry) (e : HistoryEntry) : List HistoryEntry :=
  if log.length < HISTORY_CAPACITY then log ++ [e] else log

/-- Modelled from the spec: list() produces the recorded entries in insertion
order (spec section 4.2). -/
def listEntries (log : List HistoryEntry) : List HistoryEntry :=
  log

/-- Modelled from the spec: is_empty() (spec section 4.2). -/
def historyIsEmpty (log : List HistoryEntry) : Bool :=
  log.isEmpty

/-- Recording a sequence of entries one by one into an initially empty log. -/
def recordAll (es : List HistoryEntry) : List HistoryEntry :=
  es.foldl record []

/-- FP.maxFinite is the literal it is meant to abbreviate. -/
theorem FP.maxFinite_eq : FP.maxFinite = (2 ^ 53 - 1) * 2 ^ 971 := by
  rw [FP.maxFinite]
  norm_num

/-- CALC_PRECISION_EPSILON is the value 1e-15. -/
theorem CALC_PRECISION_EPSILON_eq : CALC_PRECISION_EPSILON = 1 / 10 ^ 15 := by
  rw [CALC_PRECISION_EPSILON, Rat.mkRat_eq_div]
  norm_num

/-!
Helper lemmas about the classifiers and saturation.
-/

/-- Saturation never produces NaN. -/
lemma roundFP_ne_nan (q : ℚ) : roundFP q ≠ FP.nan := by
  unfold roundFP
  split
  · simp
  · split <;> simp

/-- The three possible shapes of a saturated value. -/
lemma roundFP_cases (q : ℚ) :
    roundFP q = FP.finite q ∨ roundFP q = FP.posInf ∨ roundFP q = FP.negInf := by
  unfold roundFP
  split
  · simp
  · split <;> simp

/-- A value is classified as overflow exactly when it is positive infinity. -/
lemma is_overflow_true_iff (v : FP) : calculator_is_overflow v = true ↔ v = FP.posInf := by
  cases v <;> simp [calculator_is_overflow, fpIsInf, fpLt]

/-- A value is classified as underflow exactly when it is negative infinity:
the zero clause of the C source is unsatisfiable because a value comparing
equal to 0.0 is finite, hence a valid number. -/
lemma is_underflow_true_iff (v : FP) : calculator_is_underflow v = true ↔ v = FP.negInf := by
  cases v with
  | finite q =>
    simp [calculator_is_underflow, fpEq, fpIsInf, fpLt, calculator_is_valid_number]
  | posInf => simp [calculator_is_underflow, fpEq, fpIsInf, fpLt, calculator_is_valid_number]
  | negInf => simp [calculator_is_underflow, fpEq, fpIsInf, fpLt, calculator_is_valid_number]
  | nan => simp [calculator_is_underflow, fpEq, fpIsInf, fpLt, calculator_is_valid_number]

/-- A valid number is a finite value. -/
lemma is_valid_true_iff (v : FP) : calculator_is_valid_number v = true ↔ ∃ q, v = FP.finite q := by
  cases v <;> simp [calculator_is_valid_number]

/-- If the trailing overflow and underflow checks both pass and the value is
not NaN, the value is finite. -/
lemma finite_of_checks_pass {r : FP} (hnan : r ≠ FP.nan)
    (hov : calculator_is_overflow r = false) (hun : calculator_is_underflow r = false) :
    ∃ q, r = FP.finite q := by
  cases r with
  | finite q => exact ⟨q, rfl⟩
  | posInf => simp [calculator_is_overflow, fpIsInf, fpLt] at hov
  | negInf => simp [calculator_is_underflow, fpIsInf, fpLt, fpEq,
      calculator_is_valid_number] at hun
  | nan => exact absurd rfl hnan

/-- Claim C1: for all finite operands a and b with |b| < 1e-15, calculator_divide
returns CALC_ERROR_DIVISION_BY_ZERO and leaves the result cell untouched (the
division-by-zero check fires before the quotient is computed), regardless of
the sign or value of a. -/
theorem divide_small_divisor_division_by_zero (qa qb : ℚ) (c : FP)
    (hb : |qb| < CALC_PRECISION_EPSILON) :
    calculator_divide (FP.finite qa) (FP.finite qb) (some c) =
      (CALC_ERROR_DIVISION_BY_ZERO, some c) := by
  simp [calculator_divide, calculator_is_valid_number, fpAbs, fpLt, hb]

unseal Rat.add Rat.mul Rat.sub Rat.inv in
/-- Witness for C1: divide(1, 0) with a live result cell reports division by
zero and leaves the cell at its prior value 7. -/
theorem divide_small_divisor_division_by_zero_witness :
    calculator_divide (FP.finite 1) (FP.finite 0) (some (FP.finite 7)) =
      (CALC_ERROR_DIVISION_BY_ZERO, some (FP.finite 7)) :=
  divide_small_divisor_division_by_zero 1 0 (FP.finite 7) (by decide)

/-- Claim C3: for all finite a and b, calculator_add returns CALC_SUCCESS with
the value a+b whenever the double sum a+b is finite, and it flags
CALC_ERROR_OVERFLOW exactly when the double sum a+b is positive infinity. -/
theorem add_exact_and_overflow_iff (qa qb : ℚ) (c : FP) :
    (∀ q : ℚ, roundFP (qa + qb) = FP.finite q →
      calculator_add (FP.finite qa) (FP.finite qb) (some c) =
        (CALC_SUCCESS, some (FP.finite (qa + qb)))) ∧
    ((calculator_add (FP.finite qa) (FP.finite qb) (some c)).1 = CALC_ERROR_OVERFLOW ↔
      roundFP (qa + qb) = FP.posInf) := by
  constructor
  · intro q hq
    have hq2 : q = qa + qb := by
      unfold roundFP at hq
      split at hq
      · exact absurd hq (by simp)
      · split at hq
        · exact absurd hq (by simp)
        · exact (FP.finite.injEq _ _ ▸ congrArg id hq).symm ▸ (by
            cases hq
            rfl)
    subst hq2
    simp [calculator_add, calculator_is_valid_number, fpAdd, hq,
      calculator_is_overflow, calculator_is_underflow, fpIsInf, fpEq, fpLt]
  · rcases roundFP_cases (qa + qb) with h | h | h <;>
      simp [calculator_add, calculator_is_valid_number, fpAdd, h,
        calculator_is_overflow, calculator_is_underflow, fpIsInf, fpEq, fpLt]

unseal Rat.add Rat.mul Rat.sub Rat.inv in
/-- Witness for C3: add(5, 3) succeeds with value 8. -/
theorem add_exact_and_overflow_iff_witness :
    calculator_add (FP.finite 5) (FP.finite 3) (some (FP.finite 0)) =
      (CALC_SUCCESS, some (FP.finite (5 + 3))) :=
  (add_exact_and_overflow_iff 5 3 (FP.finite 0)).1 (5 + 3) (by decide)

/-- Claim C5: modulus(7, 3) succeeds with result 1, and for every int operand a
(any integer in the 32-bit int range) modulus(a, 0) reports division by zero. -/
theorem modulus_example_and_zero_divisor :
    calculator_modulus 7 3 (some (FP.finite 0)) = (CALC_SUCCESS, some (FP.finite 1)) ∧
    ∀ a : ℤ, CALC_MIN_SAFE_INTEGER ≤ a → a ≤ CALC_MAX_SAFE_INTEGER → ∀ c : FP,
      calculator_modulus a 0 (some c) = (CALC_ERROR_DIVISION_BY_ZERO, some c) := by
  constructor
  · decide
  · intro a h1 h2 c
    simp only [calculator_modulus]
    rw [if_neg, if_pos trivial]
    simp only [CALC_MAX_SAFE_INTEGER, CALC_MIN_SAFE_INTEGER, INT_MAX, INT_MIN] at h1 h2 ⊢
    omega

/-- Witness for C5: modulus(5, 0) reports division by zero. -/
theorem modulus_example_and_zero_divisor_witness :
    calculator_modulus 5 0 (some (FP.finite 2)) =
      (CALC_ERROR_DIVISION_BY_ZERO, some (FP.finite 2)) :=
  modulus_example_and_zero_divisor.2 5 (by decide) (by decide) (FP.finite 2)

/-- Claim C10, counterexample: at a = INT_MIN and b = -1 both operands are in
the int range (the range check passes) and the divisor is nonzero, yet the C
remainder a % b is undefined behavior -- cIntRem is none there -- so on this
input the outcome of the C function is neither DivisionByZero nor success
with the integer remainder, refuting the universal claim. -/
theorem modulus_int_min_neg_one_undefined :
    ¬(INT_MIN > CALC_MAX_SAFE_INTEGER ∨ INT_MIN < CALC_MIN_SAFE_INTEGER ∨
      (-1 : ℤ) > CALC_MAX_SAFE_INTEGER ∨ (-1 : ℤ) < CALC_MIN_SAFE_INTEGER) ∧
    (-1 : ℤ) ≠ 0 ∧ cIntRem INT_MIN (-1) = none :=
  ⟨by decide, by decide, by decide⟩

/-- Claim C10, amended: for int operands in the 32-bit range and a non-NULL
result pointer, excluding the single input (a, b) = (INT_MIN, -1) on which
the C remainder is undefined behavior, calculator_modulus never returns
CALC_ERROR_INVALID_INPUT: the out-of-range branch is unreachable, and the
outcome is division-by-zero when b = 0, else success with the (defined) C
integer remainder a % b. -/
theorem modulus_invalid_input_unreachable (a b : ℤ)
    (ha1 : CALC_MIN_SAFE_INTEGER ≤ a) (ha2 : a ≤ CALC_MAX_SAFE_INTEGER)
    (hb1 : CALC_MIN_SAFE_INTEGER ≤ b) (hb2 : b ≤ CALC_MAX_SAFE_INTEGER)
    (hub : ¬(a = INT_MIN ∧ b = -1)) (c : FP) :
    (calculator_modulus a b (some c)).1 ≠ CALC_ERROR_INVALID_INPUT ∧
    (b = 0 → calculator_modulus a b (some c) = (CALC_ERROR_DIVISION_BY_ZERO, some c)) ∧
    (b ≠ 0 → ∃ r : ℤ, cIntRem a b = some r ∧
      calculator_modulus a b (some c) = (CALC_SUCCESS, some (FP.finite (r : ℚ)))) := by
  have hcond : ¬ (a > CALC_MAX_SAFE_INTEGER ∨ a < CALC_MIN_SAFE_INTEGER ∨
      b > CALC_MAX_SAFE_INTEGER ∨ b < CALC_MIN_SAFE_INTEGER) := by
    simp only [CALC_MAX_SAFE_INTEGER, CALC_MIN_SAFE_INTEGER, INT_MAX, INT_MIN] at *
    omega
  by_cases hb : b = 0
  · subst hb
    have heq : calculator_modulus a 0 (some c) = (CALC_ERROR_DIVISION_BY_ZERO, some c) := by
      simp only [calculator_modulus]
      rw [if_neg hcond, if_pos trivial]
    rw [heq]
    exact ⟨by simp, fun _ => rfl, fun h0 => absurd rfl h0⟩
  · have heq : calculator_modulus a b (some c) =
        (CALC_SUCCESS, some (FP.finite ((Int.tmod a b : ℤ) : ℚ))) := by
      simp only [calculator_modulus]
      rw [if_neg hcond, if_neg hb]
    have hrem : cIntRem a b = some (Int.tmod a b) := by
      rw [cIntRem, if_neg]
      rintro (h | h)
      · exact hb h
      · exact hub h
    rw [heq]
    exact ⟨by simp, fun h0 => absurd h0 hb, fun _ => ⟨Int.tmod a b, hrem, rfl⟩⟩

/-- Witness for C10 (amended): modulus(7, 3) is not InvalidInput and succeeds
with the defined C remainder 1. -/
theorem modulus_invalid_input_unreachable_witness :
    (calculator_modulus 7 3 (some (FP.finite 0))).1 ≠ CALC_ERROR_INVALID_INPUT ∧
    ∃ r : ℤ, cIntRem 7 3 = some r ∧
      calculator_modulus 7 3 (some (FP.finite 0)) = (CALC_SUCCESS, some (FP.finite (r : ℚ))) :=
  ⟨(modulus_invalid_input_unreachable 7 3 (by decide) (by decide) (by decide) (by decide)
      (by decide) (FP.finite 0)).1,
   (modulus_invalid_input_unreachable 7 3 (by decide) (by decide) (by decide) (by decide)
      (by decide) (FP.finite 0)).2.2 (by decide)⟩

/-- Claim C7, counterexample: no double value comparing equal to 0.0 is ever
classified as underflow by calculator_is_underflow; the zero clause of the
classifier is unsatisfiable (a value equal to 0.0 is finite, hence valid). -/
theorem underflow_zero_clause_unsatisfiable :
    ¬ ∃ v : FP, fpEq v (FP.finite 0) = true ∧ calculator_is_underflow v = true := by
  rintro ⟨v, hv, hu⟩
  cases v <;>
    simp [fpEq, calculator_is_underflow, calculator_is_valid_number, fpIsInf, fpLt] at hv hu

/-- Claim C7, amended: the engine never treats a zero as underflow; the
underflow classifier returns true exactly for negative infinity. -/
theorem underflow_exactly_negative_infinity (v : FP) :
    calculator_is_underflow v = true ↔ v = FP.negInf :=
  is_underflow_true_iff v

/-- Claim C4: power(0, -1) reports division by zero and power(-2, 0.5) reports
a domain error, both before the library pow is consulted (hence for every pow
implementation); power(2, 3) succeeds with the exact value 8. -/
theorem power_special_cases :
    (∀ (pw : FP → FP → FP × Errno) (c : FP),
      calculator_power pw (FP.finite 0) (FP.finite (-1)) (some c) =
        (CALC_ERROR_DIVISION_BY_ZERO, some c)) ∧
    (∀ (pw : FP → FP → FP × Errno) (c : FP),
      calculator_power pw (FP.finite (-2)) (FP.finite (1 / 2)) (some c) =
        (CALC_ERROR_DOMAIN, some c)) ∧
    (∀ c : FP, calculator_power powRef (FP.finite 2) (FP.finite 3) (some c) =
      (CALC_SUCCESS, some (FP.finite 8))) := by
  refine ⟨fun pw c => ?_, fun pw c => ?_, fun c => ?_⟩
  · simp [calculator_power, calculator_is_valid_number, fpEq, fpLt]
  · have hfl0 : ⌊(2⁻¹ : ℚ)⌋ = 0 := by
      rw [Int.floor_eq_iff]
      norm_num
    have hfl : ¬ ((⌊(2⁻¹ : ℚ)⌋ : ℚ) = (2⁻¹ : ℚ)) := by
      rw [hfl0]
      norm_num
    simp [calculator_power, calculator_is_valid_number, fpEq, fpLt, fpFloor, hfl]
  · have hpow : ((2 : ℚ) ^ (3 : ℤ)) = 8 := by norm_num
    have hround : roundFP ((2 : ℚ) ^ (3 : ℤ)) = FP.finite 8 := by
      rw [hpow]
      unfold roundFP
      rw [if_neg (by rw [FP.maxFinite]; norm_num), if_neg (by rw [FP.maxFinite]; norm_num)]
    have hpw : powRef (FP.finite 2) (FP.finite 3) = (FP.finite 8, Errno.ok) := by
      simp [powRef, hround]
    simp [calculator_power, calculator_is_valid_number, fpEq, fpLt, hpw,
      calculator_is_overflow, calculator_is_underflow, fpIsInf]

/-- If the trailing overflow and underflow classification of a computed value
reports success, the stored value is finite, provided the computed value is
not NaN. -/
lemma tail_success_finite (r : FP) (hnan : r ≠ FP.nan)
    (h : (if calculator_is_overflow r then ((CALC_ERROR_OVERFLOW : calc_result_t), some r)
          else if calculator_is_underflow r then (CALC_ERROR_UNDERFLOW, some r)
          else (CALC_SUCCESS, some r)).1 = CALC_SUCCESS) :
    ∃ q : ℚ, (if calculator_is_overflow r then ((CALC_ERROR_OVERFLOW : calc_result_t), some r)
          else if calculator_is_underflow r then (CALC_ERROR_UNDERFLOW, some r)
          else (CALC_SUCCESS, some r)).2 = some (FP.finite q) := by
  by_cases hov : calculator_is_overflow r = true
  · simp [hov] at h
  · by_cases hun : calculator_is_underflow r = true
    · simp [hov, hun] at h
    · obtain ⟨q, hq⟩ := finite_of_checks_pass hnan
        (by simpa using hov) (by simpa using hun)
      subst hq
      exact ⟨q, by simp [hov, hun]⟩

/-- Claim C2: whenever an engine operation returns CALC_SUCCESS, the value left
in the result cell is finite, never NaN and never infinite.  For power this
relies on the C library guarantee, stated as a hypothesis on the pow
parameter: on finite arguments outside the domain-error cases (which the
engine excludes beforehand), pow never produces NaN. -/
theorem success_implies_finite_result :
    (∀ a b p, (calculator_add a b p).1 = CALC_SUCCESS →
      ∃ q : ℚ, (calculator_add a b p).2 = some (FP.finite q)) ∧
    (∀ a b p, (calculator_subtract a b p).1 = CALC_SUCCESS →
      ∃ q : ℚ, (calculator_subtract a b p).2 = some (FP.finite q)) ∧
    (∀ a b p, (calculator_multiply a b p).1 = CALC_SUCCESS →
      ∃ q : ℚ, (calculator_multiply a b p).2 = some (FP.finite q)) ∧
    (∀ a b p, (calculator_divide a b p).1 = CALC_SUCCESS →
      ∃ q : ℚ, (calculator_divide a b p).2 = some (FP.finite q)) ∧
    (∀ (a b : ℤ) p, (calculator_modulus a b p).1 = CALC_SUCCESS →
      ∃ q : ℚ, (calculator_modulus a b p).2 = some (FP.finite q)) ∧
    (∀ pw : FP → FP → FP × Errno,
      (∀ qb qe : ℚ, ¬(qb = 0 ∧ qe < 0) → ¬(qb < 0 ∧ (⌊qe⌋ : ℚ) ≠ qe) →
        (pw (FP.finite qb) (FP.finite qe)).1 ≠ FP.nan) →
      ∀ a b p, (calculator_power pw a b p).1 = CALC_SUCCESS →
        ∃ q : ℚ, (calculator_power pw a b p).2 = some (FP.finite q)) := by
  refine ⟨?_, ?_, ?_, ?_, ?_, ?_⟩
  · intro a b p h
    cases p with
    | none => simp [calculator_add] at h
    | some c =>
      cases a with
      | finite qa =>
        cases b with
        | finite qb =>
          simp only [calculator_add, calculator_is_valid_number, Bool.not_true,
            Bool.or_self, Bool.false_eq_true, if_false, fpAdd] at h ⊢
          exact tail_success_finite _ (roundFP_ne_nan _) h
        | posInf => simp [calculator_add, calculator_is_valid_number] at h
        | negInf => simp [calculator_add, calculator_is_valid_number] at h
        | nan => simp [calculator_add, calculator_is_valid_number] at h
      | posInf => simp [calculator_add, calculator_is_valid_number] at h
      | negInf => simp [calculator_add, calculator_is_valid_number] at h
      | nan => simp [calculator_add, calculator_is_valid_number] at h
  · intro a b p h
    cases p with
    | none => simp [calculator_subtract] at h
    | some c =>
      cases a with
      | finite qa =>
        cases b with
        | finite qb =>
          simp only [calculator_subtract, calculator_is_valid_number, Bool.not_true,
            Bool.or_self, Bool.false_eq_true, if_false, fpSub] at h ⊢
          exact tail_success_finite _ (roundFP_ne_nan _) h
        | posInf => simp [calculator_subtract, calculator_is_valid_number] at h
        | negInf => simp [calculator_subtract, calculator_is_valid_number] at h
        | nan => simp [calculator_subtract, calculator_is_valid_number] at h
      | posInf => simp [calculator_subtract, calculator_is_valid_number] at h
      | negInf => simp [calculator_subtract, calculator_is_valid_number] at h
      | nan => simp [calculator_subtract, calculator_is_valid_number] at h
  · intro a b p h
    cases p with
    | none => simp [calculator_multiply] at h
    | some c =>
      cases a with
      | finite qa =>
        cases b with
        | finite qb =>
          simp only [calculator_multiply, calculator_is_valid_number, Bool.not_true,
            Bool.or_self, Bool.false_eq_true, if_false, fpMul] at h ⊢
          exact tail_success_finite _ (roundFP_ne_nan _) h
        | posInf => simp [calculator_multiply, calculator_is_valid_number] at h
        | negInf => simp [calculator_multiply, calculator_is_valid_number] at h
        | nan => simp [calculator_multiply, calculator_is_valid_number] at h
      | posInf => simp [calculator_multiply, calculator_is_valid_number] at h
      | negInf => simp [calculator_multiply, calculator_is_valid_number] at h
      | nan => simp [calculator_multiply, calculator_is_valid_number] at h
  · intro a b p h
    cases p with
    | none => simp [calculator_divide] at h
    | some c =>
      cases a with
      | finite qa =>
        cases b with
        | finite qb =>
          by_cases hz : fpLt (fpAbs (FP.finite qb)) (FP.finite CALC_PRECISION_EPSILON) = true
          · simp [calculator_divide, calculator_is_valid_number, hz] at h
          · simp only [Bool.not_eq_true] at hz
            simp only [calculator_divide, calculator_is_valid_number, Bool.not_true,
              Bool.or_self, Bool.false_eq_true, if_false, hz, fpDiv] at h ⊢
            exact tail_success_finite _ (roundFP_ne_nan _) h
        | posInf => simp [calculator_divide, calculator_is_valid_number] at h
        | negInf => simp [calculator_divide, calculator_is_valid_number] at h
        | nan => simp [calculator_divide, calculator_is_valid_number] at h
      | posInf => simp [calculator_divide, calculator_is_valid_number] at h
      | negInf => simp [calculator_divide, calculator_is_valid_number] at h
      | nan => simp [calculator_divide, calculator_is_valid_number] at h
  · intro a b p h
    cases p with
    | none => simp [calculator_modulus] at h
    | some c =>
      simp only [calculator_modulus] at h ⊢
      split at h
      · simp at h
      · next hr1 =>
        split at h
        · simp at h
        · next hr2 =>
          exact ⟨((Int.tmod a b : ℤ) : ℚ), by rw [if_neg hr1, if_neg hr2]⟩
  · intro pw hpw a b p h
    cases p with
    | none => simp [calculator_power] at h
    | some c =>
      cases a with
      | finite qb =>
        cases b with
        | finite qe =>
          by_cases h1 : (fpEq (FP.finite qb) (FP.finite 0) &&
              fpLt (FP.finite qe) (FP.finite 0)) = true
          · simp [calculator_power, calculator_is_valid_number, h1] at h
          · by_cases h2 : (fpLt (FP.finite qb) (FP.finite 0) &&
                !fpEq (fpFloor (FP.finite qe)) (FP.finite qe)) = true
            · simp only [Bool.not_eq_true] at h1
              simp [calculator_power, calculator_is_valid_number, h1, h2] at h
            · have hnan : (pw (FP.finite qb) (FP.finite qe)).1 ≠ FP.nan := by
                apply hpw qb qe
                · rintro ⟨hq0, hqneg⟩
                  exact h1 (by simp [fpEq, fpLt, hq0, hqneg])
                · rintro ⟨hqlt, hfl⟩
                  exact h2 (by simp [fpLt, fpEq, fpFloor, hqlt, hfl])
              rcases hpe : pw (FP.finite qb) (FP.finite qe) with ⟨r, e⟩
              have hnanr : r ≠ FP.nan := by simpa [hpe] using hnan
              simp only [Bool.not_eq_true] at h1 h2
              simp only [calculator_power, calculator_is_valid_number, Bool.not_true,
                Bool.or_self, Bool.false_eq_true, if_false, h1, h2, hpe] at h ⊢
              cases e with
              | edom => simp at h
              | erange =>
                by_cases hov : calculator_is_overflow r = true
                · simp [hov] at h
                · by_cases hun : calculator_is_underflow r = true
                  · simp [hov, hun] at h
                  · obtain ⟨q, hq⟩ := finite_of_checks_pass hnanr
                      (by simpa using hov) (by simpa using hun)
                    subst hq
                    exact ⟨q, by simp [hov, hun]⟩
              | ok =>
                by_cases hov : calculator_is_overflow r = true
                · simp [hov] at h
                · by_cases hun : calculator_is_underflow r = true
                  · simp [hov, hun] at h
                  · obtain ⟨q, hq⟩ := finite_of_checks_pass hnanr
                      (by simpa using hov) (by simpa using hun)
                    subst hq
                    exact ⟨q, by simp [hov, hun]⟩
        | posInf => simp [calculator_power, calculator_is_valid_number] at h
        | negInf => simp [calculator_power, calculator_is_valid_number] at h
        | nan => simp [calculator_power, calculator_is_valid_number] at h
      | posInf => simp [calculator_power, calculator_is_valid_number] at h
      | negInf => simp [calculator_power, calculator_is_valid_number] at h
      | nan => simp [calculator_power, calculator_is_valid_number] at h

unseal Rat.add Rat.mul Rat.sub Rat.inv in
/-- Witness for C2: concrete successful calls of every engine operation leave a
finite value in the result cell. -/
theorem success_implies_finite_result_witness :
    (∃ q : ℚ, (calculator_add (FP.finite 1) (FP.finite 2) (some (FP.finite 0))).2 =
      some (FP.finite q)) ∧
    (∃ q : ℚ, (calculator_subtract (FP.finite 5) (FP.finite 3) (some (FP.finite 0))).2 =
      some (FP.finite q)) ∧
    (∃ q : ℚ, (calculator_multiply (FP.finite 5) (FP.finite 3) (some (FP.finite 0))).2 =
      some (FP.finite q)) ∧
    (∃ q : ℚ, (calculator_divide (FP.finite 6) (FP.finite 3) (some (FP.finite 0))).2 =
      some (FP.finite q)) ∧
    (∃ q : ℚ, (calculator_modulus 7 3 (some (FP.finite 0))).2 = some (FP.finite q)) ∧
    (∃ q : ℚ, (calculator_power (fun _ _ => (FP.finite 0, Errno.ok)) (FP.finite 2)
      (FP.finite 3) (some (FP.finite 0))).2 = some (FP.finite q)) := by
  obtain ⟨hadd, hsub, hmul, hdiv, hmod, hpow⟩ := success_implies_finite_result
  exact ⟨hadd _ _ _ (by decide), hsub _ _ _ (by decide), hmul _ _ _ (by decide),
    hdiv _ _ _ (by decide), hmod 7 3 _ (by decide),
    hpow (fun _ _ => (FP.finite 0, Errno.ok)) (fun qb qe h1 h2 => by simp) (FP.finite 2)
      (FP.finite 3) (some (FP.finite 0)) (by decide)⟩

/-- Folding record over any starting log appends exactly the prefix of the new
entries that fits in the remaining capacity. -/
lemma foldl_record_eq (es : List HistoryEntry) :
    ∀ acc : List HistoryEntry,
      List.foldl record acc es = acc ++ es.take (HISTORY_CAPACITY - acc.length) := by
  induction es with
  | nil => intro acc; simp
  | cons e tl ih =>
    intro acc
    by_cases hlen : acc.length < HISTORY_CAPACITY
    · rw [List.foldl_cons]
      have hrec : record acc e = acc ++ [e] := by rw [record, if_pos hlen]
      rw [hrec, ih (acc ++ [e])]
      have h1 : HISTORY_CAPACITY - (acc ++ [e]).length =
          HISTORY_CAPACITY - acc.length - 1 := by
        simp only [List.length_append, List.length_singleton]
        omega
      rw [h1]
      have h2 : HISTORY_CAPACITY - acc.length =
          (HISTORY_CAPACITY - acc.length - 1) + 1 := by omega
      rw [h2, List.take_succ_cons]
      simp
    · rw [List.foldl_cons]
      have hrec : record acc e = acc := by rw [record, if_neg hlen]
      have h0 : HISTORY_CAPACITY - acc.length = 0 := by omega
      rw [hrec, ih acc, h0]
      simp

/-- Claim C9: after recording N <= 50 successful calculations into an empty
history log, list() returns exactly those N entries in insertion order; in
general recording any sequence never fails and keeps exactly the first 50
entries: the excess is silently dropped and the existing entries are
untouched (no eviction). -/
theorem history_record_list_order (es : List HistoryEntry) :
    (es.length ≤ HISTORY_CAPACITY → listEntries (recordAll es) = es) ∧
    listEntries (recordAll es) = es.take HISTORY_CAPACITY := by
  have h := foldl_record_eq es []
  simp only [List.length_nil, Nat.sub_zero, List.nil_append] at h
  constructor
  · intro hlen
    rw [listEntries, recordAll, h]
    exact List.take_of_length_le hlen
  · rw [listEntries, recordAll, h]

/-- Witness for C9: two concrete entries are listed back in insertion order. -/
theorem history_record_list_order_witness :
    listEntries (recordAll [⟨9, none, Operation.SquareRoot, 3, 0⟩,
        ⟨5, some 3, Operation.Add, 8, 1⟩]) =
      [⟨9, none, Operation.SquareRoot, 3, 0⟩, ⟨5, some 3, Operation.Add, 8, 1⟩] :=
  (history_record_list_order _).1 (by decide)

/-- The classification chain of the engine equals the pair of classify and the
stored value. -/
lemma pair_classify (r : FP) :
    (if calculator_is_overflow r then ((CALC_ERROR_OVERFLOW : calc_result_t), some r)
     else if calculator_is_underflow r then (CALC_ERROR_UNDERFLOW, some r)
     else (CALC_SUCCESS, some r)) = (classify r, some r) := by
  unfold classify
  by_cases hov : calculator_is_overflow r = true
  · simp [hov]
  · by_cases hun : calculator_is_underflow r = true <;> simp [hov, hun]

/-- Claim C6: every engine operation performs its checks in the fixed order
(1) NULL result pointer yields InvalidInput, for every operation and all
operand values, before any other check; (2) operand validity (finiteness; for
modulus, the int range) yields InvalidInput before any domain check; (3) the
operation-specific domain or zero check yields DivisionByZero or DomainError
before anything is computed, leaving the result cell untouched; (4)-(5)
otherwise the operation computes and stores the value, then classifies it
post hoc with classify (Overflow for positive infinity, Underflow for
negative infinity, Success otherwise). -/
theorem validation_order :
    (∀ a b, calculator_add a b none = (CALC_ERROR_INVALID_INPUT, none)) ∧
    (∀ a b, calculator_subtract a b none = (CALC_ERROR_INVALID_INPUT, none)) ∧
    (∀ a b, calculator_multiply a b none = (CALC_ERROR_INVALID_INPUT, none)) ∧
    (∀ a b, calculator_divide a b none = (CALC_ERROR_INVALID_INPUT, none)) ∧
    (∀ a b : ℤ, calculator_modulus a b none = (CALC_ERROR_INVALID_INPUT, none)) ∧
    (∀ pw a b, calculator_power pw a b none = (CALC_ERROR_INVALID_INPUT, none)) ∧
    (∀ a b c, calculator_is_valid_number a = false ∨ calculator_is_valid_number b = false →
      calculator_add a b (some c) = (CALC_ERROR_INVALID_INPUT, some c)) ∧
    (∀ a b c, calculator_is_valid_number a = false ∨ calculator_is_valid_number b = false →
      calculator_subtract a b (some c) = (CALC_ERROR_INVALID_INPUT, some c)) ∧
    (∀ a b c, calculator_is_valid_number a = false ∨ calculator_is_valid_number b = false →
      calculator_multiply a b (some c) = (CALC_ERROR_INVALID_INPUT, some c)) ∧
    (∀ a b c, calculator_is_valid_number a = false ∨ calculator_is_valid_number b = false →
      calculator_divide a b (some c) = (CALC_ERROR_INVALID_INPUT, some c)) ∧
    (∀ a b : ℤ, ∀ c, (a > CALC_MAX_SAFE_INTEGER ∨ a < CALC_MIN_SAFE_INTEGER ∨
        b > CALC_MAX_SAFE_INTEGER ∨ b < CALC_MIN_SAFE_INTEGER) →
      calculator_modulus a b (some c) = (CALC_ERROR_INVALID_INPUT, some c)) ∧
    (∀ pw a b c, calculator_is_valid_number a = false ∨ calculator_is_valid_number b = false →
      calculator_power pw a b (some c) = (CALC_ERROR_INVALID_INPUT, some c)) ∧
    (∀ qa qb : ℚ, ∀ c, |qb| < CALC_PRECISION_EPSILON →
      calculator_divide (FP.finite qa) (FP.finite qb) (some c) =
        (CALC_ERROR_DIVISION_BY_ZERO, some c)) ∧
    (∀ a b : ℤ, ∀ c, ¬(a > CALC_MAX_SAFE_INTEGER ∨ a < CALC_MIN_SAFE_INTEGER ∨
        b > CALC_MAX_SAFE_INTEGER ∨ b < CALC_MIN_SAFE_INTEGER) → b = 0 →
      calculator_modulus a b (some c) = (CALC_ERROR_DIVISION_BY_ZERO, some c)) ∧
    (∀ pw, ∀ qb qe : ℚ, ∀ c, qb = 0 → qe < 0 →
      calculator_power pw (FP.finite qb) (FP.finite qe) (some c) =
        (CALC_ERROR_DIVISION_BY_ZERO, some c)) ∧
    (∀ pw, ∀ qb qe : ℚ, ∀ c, qb < 0 → (⌊qe⌋ : ℚ) ≠ qe →
      calculator_power pw (FP.finite qb) (FP.finite qe) (some c) =
        (CALC_ERROR_DOMAIN, some c)) ∧
    (∀ qa qb : ℚ, ∀ c, calculator_add (FP.finite qa) (FP.finite qb) (some c) =
      (classify (fpAdd (FP.finite qa) (FP.finite qb)),
        some (fpAdd (FP.finite qa) (FP.finite qb)))) ∧
    (∀ qa qb : ℚ, ∀ c, calculator_subtract (FP.finite qa) (FP.finite qb) (some c) =
      (classify (fpSub (FP.finite qa) (FP.finite qb)),
        some (fpSub (FP.finite qa) (FP.finite qb)))) ∧
    (∀ qa qb : ℚ, ∀ c, calculator_multiply (FP.finite qa) (FP.finite qb) (some c) =
      (classify (fpMul (FP.finite qa) (FP.finite qb)),
        some (fpMul (FP.finite qa) (FP.finite qb)))) ∧
    (∀ qa qb : ℚ, ∀ c, ¬(|qb| < CALC_PRECISION_EPSILON) →
      calculator_divide (FP.finite qa) (FP.finite qb) (some c) =
        (classify (fpDiv (FP.finite qa) (FP.finite qb)),
          some (fpDiv (FP.finite qa) (FP.finite qb)))) ∧
    (∀ a b : ℤ, ∀ c, ¬(a > CALC_MAX_SAFE_INTEGER ∨ a < CALC_MIN_SAFE_INTEGER ∨
        b > CALC_MAX_SAFE_INTEGER ∨ b < CALC_MIN_SAFE_INTEGER) → b ≠ 0 →
      calculator_modulus a b (some c) =
        (CALC_SUCCESS, some (FP.finite ((Int.tmod a b : ℤ) : ℚ)))) ∧
    (∀ pw, ∀ qb qe : ℚ, ∀ c, ¬(qb = 0 ∧ qe < 0) → ¬(qb < 0 ∧ (⌊qe⌋ : ℚ) ≠ qe) →
      (pw (FP.finite qb) (FP.finite qe)).2 = Errno.ok →
      calculator_power pw (FP.finite qb) (FP.finite qe) (some c) =
        (classify (pw (FP.finite qb) (FP.finite qe)).1,
          some (pw (FP.finite qb) (FP.finite qe)).1)) := by
  refine ⟨fun a b => rfl, fun a b => rfl, fun a b => rfl, fun a b => rfl, fun a b => rfl,
    fun pw a b => rfl, ?_, ?_, ?_, ?_, ?_, ?_, ?_, ?_, ?_, ?_, ?_, ?_, ?_, ?_, ?_, ?_⟩
  · rintro a b c (h | h) <;> simp [calculator_add, h]
  · rintro a b c (h | h) <;> simp [calculator_subtract, h]
  · rintro a b c (h | h) <;> simp [calculator_multiply, h]
  · rintro a b c (h | h) <;> simp [calculator_divide, h]
  · intro a b c h
    simp only [calculator_modulus]
    rw [if_pos h]
  · rintro pw a b c (h | h) <;> simp [calculator_power, h]
  · intro qa qb c hb
    simp [calculator_divide, calculator_is_valid_number, fpAbs, fpLt, hb]
  · intro a b c h hb
    simp only [calculator_modulus]
    rw [if_neg h, if_pos hb]
  · intro pw qb qe c h0 hneg
    subst h0
    simp [calculator_power, calculator_is_valid_number, fpEq, fpLt, hneg]
  · intro pw qb qe c hlt hfl
    have hne : qb ≠ 0 := ne_of_lt hlt
    simp [calculator_power, calculator_is_valid_number, fpEq, fpLt, fpFloor, hne, hlt, hfl]
  · intro qa qb c
    simp only [calculator_add, calculator_is_valid_number, Bool.not_true, Bool.or_self,
      Bool.false_eq_true, if_false]
    exact pair_classify _
  · intro qa qb c
    simp only [calculator_subtract, calculator_is_valid_number, Bool.not_true, Bool.or_self,
      Bool.false_eq_true, if_false]
    exact pair_classify _
  · intro qa qb c
    simp only [calculator_multiply, calculator_is_valid_number, Bool.not_true, Bool.or_self,
      Bool.false_eq_true, if_false]
    exact pair_classify _
  · intro qa qb c hz
    have hzb : fpLt (fpAbs (FP.finite qb)) (FP.finite CALC_PRECISION_EPSILON) = false := by
      simp [fpAbs, fpLt, hz]
    simp only [calculator_divide, calculator_is_valid_number, Bool.not_true, Bool.or_self,
      Bool.false_eq_true, if_false, hzb]
    exact pair_classify _
  · intro a b c h hb
    simp only [calculator_modulus]
    rw [if_neg h, if_neg hb]
  · intro pw qb qe c h1 h2 hok
    have hc1 : ¬((fpEq (FP.finite qb) (FP.finite 0) &&
        fpLt (FP.finite qe) (FP.finite 0)) = true) := by
      intro hx
      exact h1 (by simpa [fpEq, fpLt] using hx)
    have hc2 : ¬((fpLt (FP.finite qb) (FP.finite 0) &&
        !fpEq (fpFloor (FP.finite qe)) (FP.finite qe)) = true) := by
      intro hx
      exact h2 (by simpa [fpLt, fpEq, fpFloor] using hx)
    simp only [calculator_power, calculator_is_valid_number, Bool.not_true, Bool.or_self,
      Bool.false_eq_true, if_false, if_neg hc1, if_neg hc2, hok]
    simp only [reduceCtorEq, if_false]
    exact pair_classify _

unseal Rat.add Rat.mul Rat.sub Rat.inv in
/-- Witness for C6: concrete instances of every hypothesis-bearing part of the
check-order theorem. -/
theorem validation_order_witness :
    calculator_add FP.nan (FP.finite 1) (some (FP.finite 5)) =
      (CALC_ERROR_INVALID_INPUT, some (FP.finite 5)) ∧
    calculator_subtract FP.nan (FP.finite 1) (some (FP.finite 5)) =
      (CALC_ERROR_INVALID_INPUT, some (FP.finite 5)) ∧
    calculator_multiply FP.nan (FP.finite 1) (some (FP.finite 5)) =
      (CALC_ERROR_INVALID_INPUT, some (FP.finite 5)) ∧
    calculator_divide FP.nan (FP.finite 0) (some (FP.finite 5)) =
      (CALC_ERROR_INVALID_INPUT, some (FP.finite 5)) ∧
    calculator_modulus 2147483648 0 (some (FP.finite 5)) =
      (CALC_ERROR_INVALID_INPUT, some (FP.finite 5)) ∧
    calculator_power (fun _ _ => (FP.finite 0, Errno.ok)) FP.nan (FP.finite 1)
      (some (FP.finite 5)) = (CALC_ERROR_INVALID_INPUT, some (FP.finite 5)) ∧
    calculator_divide (FP.finite 1) (FP.finite 0) (some (FP.finite 5)) =
      (CALC_ERROR_DIVISION_BY_ZERO, some (FP.finite 5)) ∧
    calculator_modulus 5 0 (some (FP.finite 5)) =
      (CALC_ERROR_DIVISION_BY_ZERO, some (FP.finite 5)) ∧
    calculator_power (fun _ _ => (FP.finite 0, Errno.ok)) (FP.finite 0) (FP.finite (-1))
      (some (FP.finite 5)) = (CALC_ERROR_DIVISION_BY_ZERO, some (FP.finite 5)) ∧
    calculator_power (fun _ _ => (FP.finite 0, Errno.ok)) (FP.finite (-2)) (FP.finite (1 / 2))
      (some (FP.finite 5)) = (CALC_ERROR_DOMAIN, some (FP.finite 5)) ∧
    calculator_divide (FP.finite 6) (FP.finite 3) (some (FP.finite 5)) =
      (classify (fpDiv (FP.finite 6) (FP.finite 3)),
        some (fpDiv (FP.finite 6) (FP.finite 3))) ∧
    calculator_modulus 7 3 (some (FP.finite 5)) =
      (CALC_SUCCESS, some (FP.finite ((Int.tmod 7 3 : ℤ) : ℚ))) ∧
    calculator_power (fun _ _ => (FP.finite 0, Errno.ok)) (FP.finite 2) (FP.finite 3)
      (some (FP.finite 5)) =
      (classify ((fun (_ _ : FP) => (FP.finite 0, Errno.ok)) (FP.finite 2) (FP.finite 3)).1,
        some ((fun (_ _ : FP) => (FP.finite 0, Errno.ok)) (FP.finite 2) (FP.finite 3)).1) := by
  obtain ⟨-, -, -, -, -, -, h7, h8, h9, h10, h11, h12, h13, h14, h15, h16, -, -, -, h20,
    h21, h22⟩ := validation_order
  exact ⟨h7 _ _ _ (Or.inl rfl), h8 _ _ _ (Or.inl rfl), h9 _ _ _ (Or.inl rfl),
    h10 _ _ _ (Or.inl rfl), h11 _ _ _ (by decide), h12 _ _ _ _ (Or.inl rfl),
    h13 1 0 _ (by decide), h14 5 0 _ (by decide) rfl, h15 _ 0 (-1) _ rfl (by decide),
    h16 _ (-2) (1 / 2) _ (by decide) (by decide), h20 6 3 _ (by decide),
    h21 7 3 _ (by decide) (by decide), h22 _ 2 3 _ (by decide) (by decide) rfl⟩

/-- Core estimate for the scaled integer square root: with denominator scale
M = 3e9 * (p + 1), the rational s / (d * M) with s the integer square root of
p * d * M ^ 2 squares to at most p / d, and misses it by at most 1e-9. -/
lemma sqrt_approx_general (p d M s : ℕ) (hd : 0 < d) (hM : M = 3 * 10 ^ 9 * (p + 1))
    (hs : s = Nat.sqrt (p * d * M ^ 2)) :
    ((s : ℚ) / ((d : ℚ) * (M : ℚ))) * ((s : ℚ) / ((d : ℚ) * (M : ℚ))) ≤ (p : ℚ) / (d : ℚ) ∧
    (p : ℚ) / (d : ℚ) -
        ((s : ℚ) / ((d : ℚ) * (M : ℚ))) * ((s : ℚ) / ((d : ℚ) * (M : ℚ))) ≤ 1 / 10 ^ 9 := by
  have hM0 : 0 < M := by subst hM; positivity
  have h1 : s * s ≤ p * d * M ^ 2 := by rw [hs]; exact Nat.sqrt_le _
  have h2 : p * d * M ^ 2 ≤ s * s + 2 * s := by
    have h3 := Nat.lt_succ_sqrt (p * d * M ^ 2)
    rw [← hs] at h3
    have h4 : Nat.succ s * Nat.succ s = s * s + 2 * s + 1 := by
      rw [Nat.succ_eq_add_one]
      ring
    omega
  have hsle : s ≤ p * d * M := by
    have hk : p * d ≤ (p * d) * (p * d) := by
      rcases Nat.eq_zero_or_pos (p * d) with h | h
      · simp [h]
      · exact Nat.le_mul_of_pos_left _ h
    have hk2 : p * d * M ^ 2 ≤ (p * d * M) ^ 2 := by
      calc p * d * M ^ 2 ≤ (p * d) * (p * d) * M ^ 2 :=
            Nat.mul_le_mul_right _ hk
        _ = (p * d * M) ^ 2 := by ring
    calc s = Nat.sqrt (p * d * M ^ 2) := hs
      _ ≤ Nat.sqrt ((p * d * M) ^ 2) := Nat.sqrt_le_sqrt hk2
      _ = p * d * M := Nat.sqrt_eq' _
  have hdq : (0 : ℚ) < (d : ℚ) := by exact_mod_cast hd
  have hd1 : (1 : ℚ) ≤ (d : ℚ) := by exact_mod_cast hd
  have hMq : (0 : ℚ) < (M : ℚ) := by exact_mod_cast hM0
  have hp0 : (0 : ℚ) ≤ (p : ℚ) := by positivity
  have h1q : (s : ℚ) * s ≤ (p : ℚ) * d * (M : ℚ) ^ 2 := by exact_mod_cast h1
  have h2q : (p : ℚ) * d * (M : ℚ) ^ 2 ≤ (s : ℚ) * s + 2 * s := by exact_mod_cast h2
  have hsleq : (s : ℚ) ≤ (p : ℚ) * d * M := by exact_mod_cast hsle
  have hMq_eq : (M : ℚ) = 3 * 10 ^ 9 * ((p : ℚ) + 1) := by
    subst hM
    push_cast
    ring
  have hdM_ge : (2 : ℚ) * 10 ^ 9 * p ≤ (d : ℚ) * M := by
    rw [hMq_eq]
    nlinarith [hd1, hp0]
  have hkeyq : (2 : ℚ) * 10 ^ 9 * s ≤ (d : ℚ) ^ 2 * (M : ℚ) ^ 2 := by
    calc (2 : ℚ) * 10 ^ 9 * s ≤ 2 * 10 ^ 9 * ((p : ℚ) * d * M) := by nlinarith [hsleq]
      _ = (2 * 10 ^ 9 * p) * ((d : ℚ) * M) := by ring
      _ ≤ ((d : ℚ) * M) * ((d : ℚ) * M) :=
          mul_le_mul_of_nonneg_right hdM_ge (by positivity)
      _ = (d : ℚ) ^ 2 * (M : ℚ) ^ 2 := by ring
  constructor
  · rw [div_mul_div_comm, div_le_div_iff₀ (by positivity) hdq]
    calc (s : ℚ) * s * d ≤ ((p : ℚ) * d * M ^ 2) * d := by nlinarith [h1q, hdq.le]
      _ = (p : ℚ) * ((d : ℚ) * M * ((d : ℚ) * M)) := by ring
  · have hfrac : (p : ℚ) / d -
        ((s : ℚ) / ((d : ℚ) * M)) * ((s : ℚ) / ((d : ℚ) * M)) =
        ((p : ℚ) * d * (M : ℚ) ^ 2 - (s : ℚ) * s) / ((d : ℚ) ^ 2 * (M : ℚ) ^ 2) := by
      field_simp
      ring
    rw [hfrac, div_le_iff₀ (by positivity)]
    linarith [h2q, hkeyq]

/-- For a nonnegative rational operand, ratSqrt undershoots the square root but
its square is within 1e-9 of the operand. -/
lemma ratSqrt_le_and_close (a : ℚ) (ha : 0 ≤ a) :
    ratSqrt a * ratSqrt a ≤ a ∧ a - ratSqrt a * ratSqrt a ≤ 1 / 10 ^ 9 := by
  have hnum : ((a.num.toNat : ℤ)) = a.num := Int.toNat_of_nonneg (Rat.num_nonneg.mpr ha)
  have hd : 0 < a.den := a.den_pos
  have ha_eq : a = ((a.num.toNat : ℕ) : ℚ) / ((a.den : ℕ) : ℚ) := by
    conv_lhs => rw [← Rat.num_div_den a]
    congr 1
    exact_mod_cast hnum.symm
  obtain ⟨h1, h2⟩ := sqrt_approx_general a.num.toNat a.den
    (3 * 10 ^ 9 * (a.num.toNat + 1)) (Nat.sqrt (a.num.toNat * a.den *
      (3 * 10 ^ 9 * (a.num.toNat + 1)) ^ 2)) hd rfl rfl
  rw [← ha_eq] at h1 h2
  exact ⟨by rw [ratSqrt]; exact h1, by rw [ratSqrt]; exact h2⟩

/-- Claim C8: the (spec-modelled) square-root operation reports a DomainError
for every negative finite operand, leaving the cell untouched, and for every
nonnegative finite operand succeeds with a value v whose square is within
1e-9 of the operand. -/
theorem sqrt_domain_and_approximation (q : ℚ) (c : FP) :
    (q < 0 → calculate_sqrt (FP.finite q) (some c) = (CALC_ERROR_DOMAIN, some c)) ∧
    (0 ≤ q → ∃ v : ℚ,
      calculate_sqrt (FP.finite q) (some c) = (CALC_SUCCESS, some (FP.finite v)) ∧
      |v * v - q| ≤ 1 / 10 ^ 9) := by
  constructor
  · intro hq
    simp [calculate_sqrt, hq]
  · intro hq
    obtain ⟨h1, h2⟩ := ratSqrt_le_and_close q hq
    refine ⟨ratSqrt q, ?_, ?_⟩
    · simp [calculate_sqrt, not_lt.mpr hq]
    · rw [abs_sub_comm, abs_of_nonneg (by linarith)]
      linarith

/-- Witness for C8: sqrt(-4) is a DomainError and sqrt(0) succeeds with a value
squaring to within 1e-9 of 0. -/
theorem sqrt_domain_and_approximation_witness :
    calculate_sqrt (FP.finite (-4)) (some (FP.finite 0)) =
      (CALC_ERROR_DOMAIN, some (FP.finite 0)) ∧
    (∃ v : ℚ, calculate_sqrt (FP.finite 0) (some (FP.finite 0)) =
      (CALC_SUCCESS, some (FP.finite v)) ∧ |v * v - 0| ≤ 1 / 10 ^ 9) :=
  ⟨(sqrt_domain_and_approximation (-4) (FP.finite 0)).1 (by norm_num),
   (sqrt_domain_and_approximation 0 (FP.finite 0)).2 (by norm_num)⟩
